import Mathlib

/-!
Verification of the webdatabase background-thread core
(`modules/webdatabase/DatabaseThread.h`) against its design document.

The repository ships only the class header: the inline member functions
(`isDatabaseThread` and the accessors) are embedded directly from the
source, while the out-of-line member bodies (`scheduleTask`,
`requestTermination`, `cleanupDatabaseThread`, the registry mutators and
the transaction coordinator) are modelled from the design document,
faithful to its words.  Machine state is passed explicitly; the worker
loop and the coordinator's grant loop are structural recursions
instrumented with event logs so that ordering properties can be stated.
-/

namespace WebDB

/-- Embedded from `public/platform/WebThread.h` as consumed by the header:
the only capability `DatabaseThread` uses is `isCurrentThread()`. -/
structure WebThread where
  isCurrentThread : Bool
deriving DecidableEq, Repr

/-- Modelled from the spec: a Task carries an opaque operation (identified
by `id`), a flag saying whether the operation raises an internal failure
when executed, and a flag marking the designated shutdown Task that a
termination request enqueues (spec 2, 4.2). -/
structure DatabaseTask where
  id : Nat
  fails : Bool
  isShutdownTask : Bool
deriving DecidableEq, Repr

/-- Modelled from the spec: the worker lifecycle states
NotStarted, Running, TerminationRequested, Terminated (spec 4.2). -/
inductive Phase where
  | notStarted
  | running
  | terminationRequested
  | terminated
deriving DecidableEq, Repr

/-- Modelled from the spec: a transaction's declared mode, read-only or
read-write (spec 3). -/
inductive Mode where
  | readOnly
  | readWrite
deriving DecidableEq, Repr

/-- Modelled from the spec: an in-flight transaction against one
DatabaseIdentity: an identifier plus its declared mode (spec 3). -/
structure Txn where
  id : Nat
  mode : Mode
deriving DecidableEq, Repr

/-- Modelled from the spec: the coordinator's per-identity lock state — a
set of currently-active transactions, the FIFO waiting list of pending
transactions, and (instrumentation) the log of lock grants in the order
the coordinator issued them (spec 3, 4.4). -/
structure CoordinationInfo where
  active : List Txn
  pending : List Txn
  grantLog : List Txn
deriving DecidableEq, Repr

/-- The `DatabaseThread` state.  Fields `m_thread`, `m_openDatabaseSet`,
`m_transactionClient`, `m_transactionCoordinator`, `m_cleanupSync` and
`m_terminationRequested` come from the header (lines 75-84); the registry
(a `HashSet` in the source) is a duplicate-free list of handle
identifiers; the coordinator maps DatabaseIdentity keys to per-identity
lock state; `m_cleanupSync` is generalised to the list of synchronizers
recorded by termination requests, per the spec sentence that the
synchronizers of two termination requests are both eventually signaled.
The fields `queue`, `executed`, `closedLog`, `signaled`, `shutdownRuns`
and `threadReleased` instrument the modelled behaviour: the task queue,
the log of executed task ids, the log of handle force-close events, the
synchronizers signaled so far, and counters of shutdown sequences run and
platform-thread releases. -/
structure DatabaseThread where
  m_thread : Option WebThread
  phase : Phase
  queue : List DatabaseTask
  m_openDatabaseSet : List Nat
  m_transactionClient : Nat
  m_transactionCoordinator : List (Nat × CoordinationInfo)
  m_cleanupSync : List Nat
  m_terminationRequested : Bool
  executed : List Nat
  closedLog : List Nat
  signaled : List Nat
  shutdownRuns : Nat
  threadReleased : Nat
deriving DecidableEq, Repr

namespace DatabaseThread

/-- Modelled from the spec: `create()` returns a new instance in the
NotStarted state (spec 6); no platform thread exists yet. -/
def create : DatabaseThread :=
  { m_thread := none
    phase := Phase.notStarted
    queue := []
    m_openDatabaseSet := []
    m_transactionClient := 0
    m_transactionCoordinator := []
    m_cleanupSync := []
    m_terminationRequested := false
    executed := []
    closedLog := []
    signaled := []
    shutdownRuns := 0
    threadReleased := 0 }

/-- Embedded from the header, line 65:
`bool isDatabaseThread() { return m_thread && m_thread->isCurrentThread(); }`.
The null test on the `OwnPtr` short-circuits before the dereference. -/
def isDatabaseThread (s : DatabaseThread) : Bool :=
  match s.m_thread with
  | none => false
  | some t => t.isCurrentThread

/-- Embedded from the header, line 67: the accessor returning the
transaction client collaborator. -/
def transactionClient (s : DatabaseThread) : Nat :=
  s.m_transactionClient

/-- Embedded from the header, line 68: the accessor returning the
transaction coordinator collaborator. -/
def transactionCoordinator (s : DatabaseThread) :
    List (Nat × CoordinationInfo) :=
  s.m_transactionCoordinator

/-- Modelled from the spec: `terminationRequested(taskSynchronizer)` is a
non-blocking boolean query returning whether termination has been
requested; the optional synchronizer argument only lets the calling Task
recognize its own termination request, and the query mutates none of the
instance's state (spec 4.2, 6).  The body of this member is not in the
repository; only its `const` declaration (header line 57) is. -/
def terminationRequested (sync : Option Nat) (s : DatabaseThread) :
    Bool × DatabaseThread :=
  match sync with
  | none => (s.m_terminationRequested, s)
  | some _ => (s.m_terminationRequested, s)

/-- Modelled from the spec: `scheduleTask` appends a Task to the tail of
the queue, non-blocking for the caller; it fails silently (the task is
dropped, no error is raised) if the worker has already completed
termination (spec 4.1, 6). -/
def scheduleTask (t : DatabaseTask) (s : DatabaseThread) : DatabaseThread :=
  if s.phase = Phase.terminated then s
  else { s with queue := s.queue ++ [t] }

/-- Modelled from the spec: `recordDatabaseOpen` adds a handle to the
open-database registry (header line 61; the registry is a `HashSet`, so
adding a member again leaves it unchanged). -/
def recordDatabaseOpen (h : Nat) (s : DatabaseThread) : DatabaseThread :=
  { s with m_openDatabaseSet :=
      if h ∈ s.m_openDatabaseSet then s.m_openDatabaseSet
      else h :: s.m_openDatabaseSet }

/-- Modelled from the spec: `recordDatabaseClosed` removes a handle from
the registry (header line 62; removing a non-member from a `HashSet` is a
no-op). -/
def recordDatabaseClosed (h : Nat) (s : DatabaseThread) : DatabaseThread :=
  { s with m_openDatabaseSet := s.m_openDatabaseSet.erase h }

/-- Modelled from the spec: `isDatabaseOpen` reports membership in the
registry (header line 63). -/
def isDatabaseOpen (h : Nat) (s : DatabaseThread) : Bool :=
  s.m_openDatabaseSet.contains h

/-- Modelled from the spec: the designated shutdown Task enqueued by a
termination request (spec 4.2). -/
def shutdownTask : DatabaseTask :=
  { id := 0, fails := false, isShutdownTask := true }

/-- Modelled from the spec: `requestTermination(cleanupSync)` records the
caller's synchronizer and marks/enqueues the shutdown signal.  If called
while already terminating it is idempotent: it does not enqueue a second
shutdown Task, only records the additional synchronizer so that it too is
signaled when the single shutdown sequence completes (spec 4.2, 8). -/
def requestTermination (sync : Option Nat) (s : DatabaseThread) :
    DatabaseThread :=
  if s.m_terminationRequested then
    { s with m_cleanupSync := s.m_cleanupSync ++ sync.toList }
  else
    { s with
        m_terminationRequested := true
        phase := Phase.terminationRequested
        m_cleanupSync := s.m_cleanupSync ++ sync.toList
        queue := s.queue ++ [shutdownTask] }

/-- Modelled from the spec: the force-close walk of
`cleanupDatabaseThread` (header line 73).  Each handle still in the
registry is removed from the registry first and only then finalized (its
close event emitted), which is the structural guard against double-close
(spec 4.3). -/
def closeLoop (s : DatabaseThread) : List Nat → DatabaseThread
  | [] => s
  | d :: rest =>
      closeLoop
        { s with
            m_openDatabaseSet := rest
            closedLog := s.closedLog ++ [d] } rest

/-- Modelled from the spec: force-close every handle remaining in the
registry at termination (spec 4.3). -/
def forceCloseAll (s : DatabaseThread) : DatabaseThread :=
  closeLoop s s.m_openDatabaseSet

/-- Modelled from the spec: the shutdown sequence the worker runs when it
dequeues the shutdown Task: it drains no further Tasks, force-closes all
registered handles, signals every recorded synchronizer, releases the
platform thread once, and enters the Terminated state (spec 4.2). -/
def shutdownSequence (s : DatabaseThread) : DatabaseThread :=
  let s1 := forceCloseAll s
  { s1 with
      phase := Phase.terminated
      queue := []
      m_thread := none
      signaled := s1.signaled ++ s1.m_cleanupSync
      shutdownRuns := s1.shutdownRuns + 1
      threadReleased := s1.threadReleased + 1 }

/-- Modelled from the spec: the worker's dequeue loop over the listed
tasks.  It takes each Task in FIFO order and executes it inline; a Task's
internal failure is caught and does not end the loop — only the
designated shutdown Task does, upon which the shutdown sequence runs
(spec 4.2, 7).  Exhausting the list models the worker blocked in
`take()`. -/
def workLoop (s : DatabaseThread) : List DatabaseTask → DatabaseThread
  | [] => s
  | t :: rest =>
      if t.isShutdownTask then shutdownSequence { s with queue := rest }
      else
        workLoop
          { s with queue := rest, executed := s.executed ++ [t.id] } rest

/-- Modelled from the spec: run the worker's dequeue loop on the current
queue (spec 4.2). -/
def runWorker (s : DatabaseThread) : DatabaseThread :=
  workLoop s s.queue

/-- Modelled from the spec: a sequence of `schedule` calls, in global
submission order as observed by the single queue (spec 4.1, 5). -/
def scheduleAll (ts : List DatabaseTask) (s : DatabaseThread) :
    DatabaseThread :=
  List.foldl (fun a t => scheduleTask t a) s ts

end DatabaseThread

namespace CoordinationInfo

/-- Modelled from the spec: the per-identity lock state before any
transaction has been submitted. -/
def initialInfo : CoordinationInfo :=
  { active := [], pending := [], grantLog := [] }

/-- Modelled from the spec: a transaction may be granted its lock when
(a) the active set is empty, or (b) it is read-only and the active set
contains only read-only transactions (spec 4.4). -/
def canGrant (active : List Txn) (t : Txn) : Bool :=
  match t.mode with
  | Mode.readWrite => active.isEmpty
  | Mode.readOnly => active.all (fun a => a.mode = Mode.readOnly)

/-- Modelled from the spec: the coordinator's grant loop.  It re-evaluates
the head of the FIFO waiting list: if the head can be granted it becomes
active (and the loop continues, so that read-only waiters immediately
following a granted read-only head are granted together); a head that
cannot be granted blocks all later waiters, which is the fairness rule
preventing writer starvation (spec 4.4, 9). -/
def grantLoop (active : List Txn) (log : List Txn) :
    List Txn → CoordinationInfo
  | [] => { active := active, pending := [], grantLog := log }
  | t :: rest =>
      if canGrant active t then grantLoop (active ++ [t]) (log ++ [t]) rest
      else { active := active, pending := t :: rest, grantLog := log }

/-- Modelled from the spec: re-evaluate the waiting list after a state
change (spec 4.4). -/
def processPending (info : CoordinationInfo) : CoordinationInfo :=
  grantLoop info.active info.grantLog info.pending

/-- Modelled from the spec: on transaction start the transaction joins the
identity's FIFO waiting list (first submitted, first granted) and the
waiting list is re-evaluated, which grants it immediately exactly when no
earlier waiter blocks it and its mode is compatible with the active set
(spec 4.4). -/
def acquireLock (t : Txn) (info : CoordinationInfo) : CoordinationInfo :=
  processPending { info with pending := info.pending ++ [t] }

/-- Modelled from the spec: on transaction completion the transaction is
removed from the active set and the head of the waiting list is
re-evaluated (spec 4.4). -/
def completeTransaction (t : Txn) (info : CoordinationInfo) :
    CoordinationInfo :=
  processPending
    { info with active := info.active.filter (fun a => a.id ≠ t.id) }

/-- Modelled from the spec: one transaction start or completion step of
the coordinator on one identity (spec 3, 4.4). -/
inductive CoStep : CoordinationInfo → CoordinationInfo → Prop where
  | start (t : Txn) (info : CoordinationInfo) :
      CoStep info (acquireLock t info)
  | complete (t : Txn) (info : CoordinationInfo) :
      CoStep info (completeTransaction t info)

/-- Modelled from the spec: the coordinator states reachable from the
initial per-identity state by any sequence of transaction start and
completion steps. -/
inductive Reachable : CoordinationInfo → Prop where
  | init : Reachable initialInfo
  | step {i j : CoordinationInfo} : Reachable i → CoStep i j → Reachable j

/-- The submission history of one identity: transactions already granted,
in grant order, followed by the still-pending waiting list. -/
def hist (info : CoordinationInfo) : List Txn :=
  info.grantLog ++ info.pending

end CoordinationInfo

attribute [ext] DatabaseThread
attribute [ext] CoordinationInfo

namespace DatabaseThread

theorem closeLoop_eq (l : List Nat) :
    ∀ s : DatabaseThread,
      closeLoop s l =
        { s with
            m_openDatabaseSet := if l.isEmpty then s.m_openDatabaseSet else []
            closedLog := s.closedLog ++ l } := by
  induction l with
  | nil => intro s; simp [closeLoop]
  | cons d rest ih =>
      intro s
      rw [closeLoop, ih]
      cases rest <;> simp

theorem forceCloseAll_eq (s : DatabaseThread) :
    forceCloseAll s =
      { s with
          m_openDatabaseSet := []
          closedLog := s.closedLog ++ s.m_openDatabaseSet } := by
  rw [forceCloseAll, closeLoop_eq]
  cases h : s.m_openDatabaseSet <;> simp [h]

theorem shutdownSequence_eq (s : DatabaseThread) :
    shutdownSequence s =
      { s with
          phase := Phase.terminated
          queue := []
          m_thread := none
          m_openDatabaseSet := []
          closedLog := s.closedLog ++ s.m_openDatabaseSet
          signaled := s.signaled ++ s.m_cleanupSync
          shutdownRuns := s.shutdownRuns + 1
          threadReleased := s.threadReleased + 1 } := by
  simp [shutdownSequence, forceCloseAll_eq]

theorem workLoop_no_shutdown (q : List DatabaseTask) :
    ∀ s : DatabaseThread, s.queue = q →
      (∀ t ∈ q, t.isShutdownTask = false) →
      workLoop s q =
        { s with
            queue := []
            executed := s.executed ++ q.map (fun t => t.id) } := by
  induction q with
  | nil =>
      intro s hq _
      cases s
      simp_all [workLoop]
  | cons t rest ih =>
      intro s hq hns
      have ht : t.isShutdownTask = false := hns t (by simp)
      simp only [workLoop]
      rw [if_neg (by simp [ht])]
      rw [ih { s with queue := rest, executed := s.executed ++ [t.id] } rfl
            (fun u hu => hns u (by simp [hu]))]
      simp

theorem runWorker_no_shutdown (s : DatabaseThread)
    (h : ∀ t ∈ s.queue, t.isShutdownTask = false) :
    runWorker s =
      { s with
          queue := []
          executed := s.executed ++ s.queue.map (fun t => t.id) } :=
  workLoop_no_shutdown s.queue s rfl h

theorem workLoop_shutdown (q : List DatabaseTask) :
    ∀ (s : DatabaseThread) (t : DatabaseTask) (rest : List DatabaseTask),
      (∀ u ∈ q, u.isShutdownTask = false) →
      t.isShutdownTask = true →
      workLoop s (q ++ t :: rest) =
        shutdownSequence
          { s with
              queue := rest
              executed := s.executed ++ q.map (fun u => u.id) } := by
  induction q with
  | nil =>
      intro s t rest _ ht
      simp only [List.nil_append, workLoop]
      rw [if_pos (by simp [ht])]
      congr 1
      simp
  | cons u q' ih =>
      intro s t rest hns ht
      have hu : u.isShutdownTask = false := hns u (by simp)
      simp only [List.cons_append, workLoop]
      rw [if_neg (by simp [hu])]
      simp only [List.append_eq]
      rw [ih { s with queue := q' ++ t :: rest,
                      executed := s.executed ++ [u.id] } t rest
            (fun v hv => hns v (by simp [hv])) ht]
      congr 1
      simp

theorem workLoop_executed_phase (q : List DatabaseTask) :
    ∀ s : DatabaseThread, s.queue = q →
      (workLoop s q).executed =
        s.executed ++
          (q.takeWhile (fun u => !u.isShutdownTask)).map (fun u => u.id) ∧
      ((workLoop s q).phase = Phase.terminated ↔
        (∃ u ∈ q, u.isShutdownTask = true) ∨ s.phase = Phase.terminated) := by
  induction q with
  | nil =>
      intro s _
      simp [workLoop]
  | cons t rest ih =>
      intro s hq
      by_cases ht : t.isShutdownTask = true
      · simp only [workLoop]
        rw [if_pos (by simp [ht])]
        constructor
        · rw [shutdownSequence_eq]
          simp [List.takeWhile, ht]
        · rw [shutdownSequence_eq]
          simp [ht]
      · have ht' : t.isShutdownTask = false := by
          cases h : t.isShutdownTask
          · rfl
          · exact absurd h ht
        simp only [workLoop]
        rw [if_neg (by simp [ht'])]
        obtain ⟨h1, h2⟩ :=
          ih { s with queue := rest, executed := s.executed ++ [t.id] } rfl
        constructor
        · rw [h1]
          simp [List.takeWhile, ht']
        · rw [h2]
          simp [ht']

theorem scheduleAll_eq (ts : List DatabaseTask) :
    ∀ s : DatabaseThread, s.phase ≠ Phase.terminated →
      scheduleAll ts s = { s with queue := s.queue ++ ts } := by
  induction ts with
  | nil => intro s _; simp [scheduleAll]
  | cons t rest ih =>
      intro s hp
      have hstep : scheduleTask t s = { s with queue := s.queue ++ [t] } := by
        simp [scheduleTask, hp]
      have : scheduleAll (t :: rest) s = scheduleAll rest (scheduleTask t s) := by
        simp [scheduleAll, List.foldl]
      rw [this, hstep, ih { s with queue := s.queue ++ [t] } hp]
      simp

end DatabaseThread

namespace CoordinationInfo

/-- The coordinator's safety property for one identity: an active
read-write transaction excludes every other active transaction. -/
def WriterExclusive (info : CoordinationInfo) : Prop :=
  ∀ t ∈ info.active, t.mode = Mode.readWrite → info.active = [t]

theorem grantLoop_writerExclusive (p : List Txn) :
    ∀ (a log : List Txn),
      (∀ t ∈ a, t.mode = Mode.readWrite → a = [t]) →
      ∀ t ∈ (grantLoop a log p).active, t.mode = Mode.readWrite →
        (grantLoop a log p).active = [t] := by
  induction p with
  | nil => intro a log ha; simpa [grantLoop] using ha
  | cons t rest ih =>
      intro a log ha
      by_cases hg : canGrant a t = true
      · simp only [grantLoop, if_pos hg]
        apply ih
        cases hm : t.mode with
        | readWrite =>
            have he : a.isEmpty = true := by
              simpa [canGrant, hm] using hg
            have ha0 : a = [] := List.isEmpty_iff.mp he
            subst ha0
            intro u hu _
            simp at hu
            simp [hu]
        | readOnly =>
            have hro : ∀ u ∈ a, u.mode = Mode.readOnly := by
              simpa [canGrant, hm] using hg
            intro u hu hw
            rcases List.mem_append.mp hu with h1 | h2
            · exact absurd hw (by simp [hro u h1])
            · have : u = t := by simpa using h2
              subst this
              exact absurd hw (by simp [hm])
      · simp only [grantLoop, if_neg hg]
        exact ha

theorem processPending_writerExclusive (info : CoordinationInfo)
    (h : WriterExclusive info) : WriterExclusive (processPending info) :=
  grantLoop_writerExclusive info.pending info.active info.grantLog h

theorem acquireLock_writerExclusive (t : Txn) (info : CoordinationInfo)
    (h : WriterExclusive info) : WriterExclusive (acquireLock t info) :=
  processPending_writerExclusive _ h

theorem completeTransaction_writerExclusive (t : Txn)
    (info : CoordinationInfo) (h : WriterExclusive info) :
    WriterExclusive (completeTransaction t info) := by
  apply processPending_writerExclusive
  intro u hu hw
  have hmem : u ∈ info.active := List.mem_of_mem_filter hu
  have := h u hmem hw
  simp only at hu ⊢
  rw [this] at hu ⊢
  rcases hif : decide (u.id ≠ t.id) with _ | _
  · simp [List.filter, hif] at hu
  · simp [List.filter, hif]

theorem coStep_writerExclusive {i j : CoordinationInfo} (h : CoStep i j)
    (hi : WriterExclusive i) : WriterExclusive j := by
  cases h with
  | start t info => exact acquireLock_writerExclusive t _ hi
  | complete t info => exact completeTransaction_writerExclusive t _ hi

theorem grantLoop_hist (p : List Txn) :
    ∀ (a log : List Txn),
      (grantLoop a log p).grantLog ++ (grantLoop a log p).pending =
        log ++ p := by
  induction p with
  | nil => intro a log; simp [grantLoop]
  | cons t rest ih =>
      intro a log
      by_cases hg : canGrant a t = true
      · simp only [grantLoop, if_pos hg]
        rw [ih]
        simp
      · simp [grantLoop, if_neg hg]

theorem hist_processPending (info : CoordinationInfo) :
    hist (processPending info) = hist info :=
  grantLoop_hist info.pending info.active info.grantLog

theorem hist_acquireLock (t : Txn) (info : CoordinationInfo) :
    hist (acquireLock t info) = hist info ++ [t] := by
  unfold acquireLock
  rw [hist_processPending]
  simp [hist]

theorem hist_completeTransaction (t : Txn) (info : CoordinationInfo) :
    hist (completeTransaction t info) = hist info := by
  unfold completeTransaction
  rw [hist_processPending]
  simp [hist]

theorem coStep_hist {i j : CoordinationInfo} (h : CoStep i j) :
    ∃ u : List Txn, hist j = hist i ++ u := by
  cases h with
  | start t info => exact ⟨[t], hist_acquireLock t _⟩
  | complete t info => exact ⟨[], by simp [hist_completeTransaction]⟩

theorem reachFrom_hist {i j : CoordinationInfo}
    (h : Relation.ReflTransGen CoStep i j) :
    ∃ u : List Txn, hist j = hist i ++ u := by
  induction h with
  | refl => exact ⟨[], by simp⟩
  | tail _ hstep ih =>
      obtain ⟨u1, hu1⟩ := ih
      obtain ⟨u2, hu2⟩ := coStep_hist hstep
      exact ⟨u1 ++ u2, by rw [hu2, hu1, List.append_assoc]⟩

/-- In list `l`, every occurrence of `r` is preceded by an occurrence of
`w`. -/
def Precedes (w r : α) (l : List α) : Prop :=
  ∀ g1 g2 : List α, l = g1 ++ r :: g2 → w ∈ g1

theorem precedes_append_single {α : Type} {w r : α} {l : List α}
    (hp : Precedes w r l) (hw : w ∈ l) (e : α) :
    Precedes w r (l ++ [e]) := by
  intro g1 g2 heq
  rcases List.eq_nil_or_concat g2 with h2 | ⟨g2h, x, h2⟩
  · subst h2
    have hlen : l.length = g1.length := by
      have hc := congrArg List.length heq
      simp at hc
      omega
    obtain ⟨hl, _⟩ := List.append_inj heq hlen
    rw [← hl]
    exact hw
  · subst h2
    have heq2 : l ++ [e] = (g1 ++ r :: g2h) ++ [x] := by
      rw [heq]; simp
    have hlen : l.length = (g1 ++ r :: g2h).length := by
      simp only [List.length_append, List.length_cons]
      have hc := congrArg List.length heq2
      simp at hc
      omega
    obtain ⟨hl, _⟩ := List.append_inj heq2 hlen
    exact hp g1 g2h hl

theorem precedes_append {α : Type} {w r : α} (u : List α) :
    ∀ l : List α, Precedes w r l → w ∈ l →
      Precedes w r (l ++ u) ∧ w ∈ l ++ u := by
  induction u with
  | nil => intro l hp hw; simpa using ⟨hp, hw⟩
  | cons x u' ih =>
      intro l hp hw
      have h1 := precedes_append_single hp hw x
      have h2 : w ∈ l ++ [x] := by simp [hw]
      have := ih (l ++ [x]) h1 h2
      simpa [List.append_assoc] using this

theorem precedes_through_head {α : Type} {r w : α} (L1 : List α) :
    ∀ (restL : List α), r ∉ L1 → r ≠ w →
      Precedes w r (L1 ++ w :: restL) := by
  induction L1 with
  | nil =>
      intro restL _ hne g1 g2 heq
      cases g1 with
      | nil =>
          simp only [List.nil_append] at heq
          exact absurd (List.cons.inj heq).1.symm hne
      | cons y g1' =>
          simp only [List.nil_append, List.cons_append] at heq
          have := (List.cons.inj heq).1
          simp [this]
  | cons x L1' ih =>
      intro restL hrn hne g1 g2 heq
      cases g1 with
      | nil =>
          simp only [List.cons_append, List.nil_append] at heq
          have : x = r := (List.cons.inj heq).1
          exact absurd (by simp [this] : r ∈ x :: L1') hrn
      | cons y g1' =>
          simp only [List.cons_append] at heq
          obtain ⟨hxy, hrest⟩ := List.cons.inj heq
          have : w ∈ g1' :=
            ih restL (fun hc => hrn (by simp [hc])) hne g1' g2 hrest
          simp [this]

end CoordinationInfo

theorem takeWhile_append_all {α : Type} (p : α → Bool) (a : List α)
    (l : List α) (h : ∀ u ∈ a, p u = true) :
    (a ++ l).takeWhile p = a ++ l.takeWhile p := by
  induction a with
  | nil => simp
  | cons x a' ih =>
      have hx := h x (by simp)
      simp only [List.cons_append, List.takeWhile_cons, hx, if_pos]
      rw [ih (fun u hu => h u (by simp [hu]))]

theorem runWorker_single_shutdown (s : DatabaseThread)
    (q : List DatabaseTask)
    (hq : s.queue = q ++ [DatabaseThread.shutdownTask])
    (hns : ∀ u ∈ q, u.isShutdownTask = false) :
    DatabaseThread.runWorker s =
      DatabaseThread.shutdownSequence
        { s with
            queue := []
            executed := s.executed ++ q.map (fun u => u.id) } := by
  unfold DatabaseThread.runWorker
  rw [hq]
  exact DatabaseThread.workLoop_shutdown q s DatabaseThread.shutdownTask []
    hns rfl

/-- Sample state: a fresh instance with two databases recorded open. -/
def sampleOpen : DatabaseThread :=
  DatabaseThread.recordDatabaseOpen 2
    (DatabaseThread.recordDatabaseOpen 1 DatabaseThread.create)

/-- Sample state: a fresh instance run through a requested termination,
hence in the Terminated phase. -/
def sampleTerminated : DatabaseThread :=
  DatabaseThread.runWorker
    (DatabaseThread.requestTermination (some 7) DatabaseThread.create)

/-- Sample state: a worker whose queue holds a failing task, an ordinary
task, and the shutdown task. -/
def sampleQ : DatabaseThread :=
  { DatabaseThread.create with
      queue := [⟨5, true, false⟩, ⟨6, false, false⟩,
        DatabaseThread.shutdownTask] }

/-- Sample transactions: a reader, a writer, and a later reader on one
identity. -/
def txnR0 : Txn := ⟨0, Mode.readOnly⟩

def txnW1 : Txn := ⟨1, Mode.readWrite⟩

def txnR2 : Txn := ⟨2, Mode.readOnly⟩

/-- Sample coordinator state: reader 0 active, writer 1 and reader 2
queued behind it in submission order. -/
def coordA : CoordinationInfo :=
  CoordinationInfo.acquireLock txnR2
    (CoordinationInfo.acquireLock txnW1
      (CoordinationInfo.acquireLock txnR0 CoordinationInfo.initialInfo))

/-- Sample coordinator state: `coordA` after reader 0 completes (the
writer is granted). -/
def coordB : CoordinationInfo :=
  CoordinationInfo.completeTransaction txnR0 coordA

/-- Sample coordinator state: `coordB` after writer 1 completes (reader 2
is granted). -/
def coordC : CoordinationInfo :=
  CoordinationInfo.completeTransaction txnW1 coordB

theorem reachable_writerExclusive (info : CoordinationInfo)
    (hreach : CoordinationInfo.Reachable info) :
    CoordinationInfo.WriterExclusive info := by
  induction hreach with
  | init =>
      intro u hu _
      simp [CoordinationInfo.initialInfo] at hu
  | step _ hstep ih =>
      exact CoordinationInfo.coStep_writerExclusive hstep ih

/-- Claim C1: in every coordinator state reachable by transaction start
and completion steps, an active read-write transaction is the only
member of the identity's active set: at most one read-write transaction
is active, and no read-only transaction coexists with it. -/
theorem claim_C1_writer_exclusion (info : CoordinationInfo)
    (hreach : CoordinationInfo.Reachable info) (t : Txn)
    (ht : t ∈ info.active) (hm : t.mode = Mode.readWrite) :
    info.active = [t] :=
  reachable_writerExclusive info hreach t ht hm

/-- Witness for C1 at a concrete reachable state with an active writer. -/
theorem claim_C1_witness :
    (CoordinationInfo.acquireLock txnW1 CoordinationInfo.initialInfo).active
      = [txnW1] :=
  claim_C1_writer_exclusion _
    (CoordinationInfo.Reachable.step CoordinationInfo.Reachable.init
      (CoordinationInfo.CoStep.start txnW1 CoordinationInfo.initialInfo))
    txnW1 (by decide) rfl

/-- Claim C2: for every sequence of schedule calls, the queue holds the
Tasks in global FIFO submission order, and the worker executes them in
exactly that order, each exactly once. -/
theorem claim_C2_fifo_execution (s : DatabaseThread)
    (ts : List DatabaseTask)
    (h1 : s.phase ≠ Phase.terminated) (h2 : s.queue = [])
    (h3 : ∀ t ∈ ts, t.isShutdownTask = false) :
    (DatabaseThread.scheduleAll ts s).queue = ts ∧
    (DatabaseThread.runWorker (DatabaseThread.scheduleAll ts s)).executed =
      s.executed ++ ts.map (fun t => t.id) := by
  have hs := DatabaseThread.scheduleAll_eq ts s h1
  constructor
  · rw [hs]; simp [h2]
  · rw [hs]
    rw [DatabaseThread.runWorker_no_shutdown _
      (by intro u hu; apply h3; simpa [h2] using hu)]
    simp [h2]

/-- Witness for C2 with two concrete tasks scheduled on a fresh
instance. -/
theorem claim_C2_witness :
    (DatabaseThread.scheduleAll
        [⟨1, false, false⟩, ⟨2, true, false⟩] DatabaseThread.create).queue =
      [⟨1, false, false⟩, ⟨2, true, false⟩] ∧
    (DatabaseThread.runWorker (DatabaseThread.scheduleAll
        [⟨1, false, false⟩, ⟨2, true, false⟩]
        DatabaseThread.create)).executed =
      DatabaseThread.create.executed ++
        List.map (fun t => t.id)
          [(⟨1, false, false⟩ : DatabaseTask), ⟨2, true, false⟩] :=
  claim_C2_fifo_execution DatabaseThread.create
    [⟨1, false, false⟩, ⟨2, true, false⟩] (by decide) rfl (by decide)

/-- Claim C3: two termination requests while the first is still pending
enqueue exactly one shutdown Task; running the worker performs exactly
one shutdown sequence, releases the thread resource exactly once, and
signals both synchronizers. -/
theorem claim_C3_requestTermination_idempotent (s : DatabaseThread)
    (a b : Nat)
    (h1 : s.m_terminationRequested = false)
    (h2 : ∀ u ∈ s.queue, u.isShutdownTask = false) :
    (DatabaseThread.requestTermination (some b)
        (DatabaseThread.requestTermination (some a) s)).queue.countP
      (fun u => u.isShutdownTask) = 1 ∧
    (DatabaseThread.runWorker (DatabaseThread.requestTermination (some b)
        (DatabaseThread.requestTermination (some a) s))).shutdownRuns =
      s.shutdownRuns + 1 ∧
    (DatabaseThread.runWorker (DatabaseThread.requestTermination (some b)
        (DatabaseThread.requestTermination (some a) s))).threadReleased =
      s.threadReleased + 1 ∧
    a ∈ (DatabaseThread.runWorker (DatabaseThread.requestTermination (some b)
        (DatabaseThread.requestTermination (some a) s))).signaled ∧
    b ∈ (DatabaseThread.runWorker (DatabaseThread.requestTermination (some b)
        (DatabaseThread.requestTermination (some a) s))).signaled := by
  have e1 : DatabaseThread.requestTermination (some a) s =
      { s with
          m_terminationRequested := true
          phase := Phase.terminationRequested
          m_cleanupSync := s.m_cleanupSync ++ [a]
          queue := s.queue ++ [DatabaseThread.shutdownTask] } := by
    simp [DatabaseThread.requestTermination, h1]
  have e2 : DatabaseThread.requestTermination (some b)
      (DatabaseThread.requestTermination (some a) s) =
      { s with
          m_terminationRequested := true
          phase := Phase.terminationRequested
          m_cleanupSync := (s.m_cleanupSync ++ [a]) ++ [b]
          queue := s.queue ++ [DatabaseThread.shutdownTask] } := by
    rw [e1]
    simp [DatabaseThread.requestTermination]
  rw [e2]
  have hcount : (s.queue ++
      [DatabaseThread.shutdownTask]).countP (fun u => u.isShutdownTask)
      = 1 := by
    rw [List.countP_append]
    have : s.queue.countP (fun u => u.isShutdownTask) = 0 :=
      List.countP_eq_zero.mpr (fun u hu => by simp [h2 u hu])
    rw [this]
    simp [DatabaseThread.shutdownTask]
  have hrun := runWorker_single_shutdown
    { s with
        m_terminationRequested := true
        phase := Phase.terminationRequested
        m_cleanupSync := (s.m_cleanupSync ++ [a]) ++ [b]
        queue := s.queue ++ [DatabaseThread.shutdownTask] }
    s.queue rfl h2
  rw [hrun, DatabaseThread.shutdownSequence_eq]
  refine ⟨hcount, by simp, by simp, by simp, by simp⟩

/-- Witness for C3 on a fresh instance with synchronizers 3 and 4. -/
theorem claim_C3_witness :
    (DatabaseThread.requestTermination (some 4)
        (DatabaseThread.requestTermination (some 3)
          DatabaseThread.create)).queue.countP
      (fun u => u.isShutdownTask) = 1 ∧
    (DatabaseThread.runWorker (DatabaseThread.requestTermination (some 4)
        (DatabaseThread.requestTermination (some 3)
          DatabaseThread.create))).shutdownRuns =
      DatabaseThread.create.shutdownRuns + 1 ∧
    (DatabaseThread.runWorker (DatabaseThread.requestTermination (some 4)
        (DatabaseThread.requestTermination (some 3)
          DatabaseThread.create))).threadReleased =
      DatabaseThread.create.threadReleased + 1 ∧
    3 ∈ (DatabaseThread.runWorker (DatabaseThread.requestTermination (some 4)
        (DatabaseThread.requestTermination (some 3)
          DatabaseThread.create))).signaled ∧
    4 ∈ (DatabaseThread.runWorker (DatabaseThread.requestTermination (some 4)
        (DatabaseThread.requestTermination (some 3)
          DatabaseThread.create))).signaled :=
  claim_C3_requestTermination_idempotent DatabaseThread.create 3 4 rfl
    (by decide)

/-- Claim C4: a Task scheduled after the worker has completed termination
is dropped silently: the scheduling call returns the state unchanged
(non-blocking, no error) and the Task is never executed. -/
theorem claim_C4_schedule_after_termination (s : DatabaseThread)
    (t : DatabaseTask) (h : s.phase = Phase.terminated) :
    DatabaseThread.scheduleTask t s = s ∧
    (DatabaseThread.runWorker (DatabaseThread.scheduleTask t s)).executed =
      (DatabaseThread.runWorker s).executed := by
  have hs : DatabaseThread.scheduleTask t s = s := by
    simp [DatabaseThread.scheduleTask, h]
  exact ⟨hs, by rw [hs]⟩

/-- Witness for C4 at a concrete terminated state. -/
theorem claim_C4_witness :
    DatabaseThread.scheduleTask ⟨9, false, false⟩ sampleTerminated =
      sampleTerminated ∧
    (DatabaseThread.runWorker (DatabaseThread.scheduleTask ⟨9, false, false⟩
        sampleTerminated)).executed =
      (DatabaseThread.runWorker sampleTerminated).executed :=
  claim_C4_schedule_after_termination sampleTerminated ⟨9, false, false⟩
    (by decide)

/-- Claim C5: starting from the handles registered when termination
begins, the shutdown cleanup leaves the registry empty and emits exactly
one close event for each registered handle (and none for any other), the
walk removing each handle from the registry before finalizing it. -/
theorem claim_C5_cleanup_closes_once (s : DatabaseThread)
    (hnd : s.m_openDatabaseSet.Nodup) (hcl : s.closedLog = []) :
    (DatabaseThread.shutdownSequence s).m_openDatabaseSet = [] ∧
    ∀ h : Nat, (DatabaseThread.shutdownSequence s).closedLog.count h =
      if h ∈ s.m_openDatabaseSet then 1 else 0 := by
  rw [DatabaseThread.shutdownSequence_eq]
  refine ⟨rfl, ?_⟩
  intro h
  simp only [hcl, List.nil_append]
  by_cases hm : h ∈ s.m_openDatabaseSet
  · rw [if_pos hm]
    exact List.count_eq_one_of_mem hnd hm
  · rw [if_neg hm]
    exact List.count_eq_zero_of_not_mem hm

/-- Witness for C5 at a registry holding handles 1 and 2. -/
theorem claim_C5_witness :
    (DatabaseThread.shutdownSequence sampleOpen).m_openDatabaseSet = [] ∧
    (DatabaseThread.shutdownSequence sampleOpen).closedLog.count 1 =
      if 1 ∈ sampleOpen.m_openDatabaseSet then 1 else 0 :=
  ⟨(claim_C5_cleanup_closes_once sampleOpen (by decide) rfl).1,
   (claim_C5_cleanup_closes_once sampleOpen (by decide) rfl).2 1⟩

/-- Claim C6: when a read-write transaction heads an identity's waiting
list, no read-only transaction behind it in the list — hence submitted
after it — is ever granted before it: in every grant log produced by
further steps, every grant of the reader is preceded by a grant of the
writer. -/
theorem claim_C6_writer_priority (s : CoordinationInfo) (w : Txn)
    (rest : List Txn) (r : Txn) (s' : CoordinationInfo)
    (hreach : CoordinationInfo.Reachable s)
    (hp : s.pending = w :: rest)
    (hw : w.mode = Mode.readWrite)
    (hr : r ∈ rest) (hrm : r.mode = Mode.readOnly)
    (hnew : r ∉ s.grantLog) (hne : r ≠ w)
    (hsteps : Relation.ReflTransGen CoordinationInfo.CoStep s s') :
    ∀ g1 g2 : List Txn, s'.grantLog = g1 ++ r :: g2 → w ∈ g1 := by
  have hhist : CoordinationInfo.hist s = s.grantLog ++ w :: rest := by
    rw [CoordinationInfo.hist, hp]
  have hprec : CoordinationInfo.Precedes w r (CoordinationInfo.hist s) := by
    rw [hhist]
    exact CoordinationInfo.precedes_through_head s.grantLog rest hnew hne
  have hwmem : w ∈ CoordinationInfo.hist s := by rw [hhist]; simp
  obtain ⟨u, hu⟩ := CoordinationInfo.reachFrom_hist hsteps
  obtain ⟨hprec', _⟩ :=
    CoordinationInfo.precedes_append u (CoordinationInfo.hist s) hprec hwmem
  rw [← hu] at hprec'
  intro g1 g2 hg
  apply hprec' g1 (g2 ++ s'.pending)
  rw [CoordinationInfo.hist, hg]
  simp

/-- Witness for C6 on the concrete scenario reader-writer-reader: the
writer appears in the grant log before the later reader. -/
theorem claim_C6_witness : txnW1 ∈ [txnR0, txnW1] :=
  claim_C6_writer_priority coordA txnW1 [txnR2] txnR2 coordC
    (CoordinationInfo.Reachable.step
      (CoordinationInfo.Reachable.step
        (CoordinationInfo.Reachable.step CoordinationInfo.Reachable.init
          (CoordinationInfo.CoStep.start txnR0 CoordinationInfo.initialInfo))
        (CoordinationInfo.CoStep.start txnW1 _))
      (CoordinationInfo.CoStep.start txnR2 _))
    (by decide) rfl (by decide) rfl (by decide) (by decide)
    (Relation.ReflTransGen.tail
      (Relation.ReflTransGen.tail Relation.ReflTransGen.refl
        (CoordinationInfo.CoStep.complete txnR0 coordA))
      (CoordinationInfo.CoStep.complete txnW1 coordB))
    [txnR0, txnW1] [] (by decide)

/-- Claim C7: a Task whose execution raises an internal failure is still
executed and the loop continues with the subsequent Tasks; the worker
loop reaches the terminated state only through a designated shutdown
Task, never through a Task failure. -/
theorem claim_C7_failure_does_not_kill_loop (s : DatabaseThread)
    (a b : List DatabaseTask) (t : DatabaseTask)
    (hq : s.queue = a ++ t :: b)
    (hf : t.fails = true)
    (hts : t.isShutdownTask = false)
    (ha : ∀ u ∈ a, u.isShutdownTask = false) :
    (DatabaseThread.runWorker s).executed =
      s.executed ++ a.map (fun u => u.id) ++
        t.id ::
          (b.takeWhile (fun u => !u.isShutdownTask)).map (fun u => u.id) ∧
    ((DatabaseThread.runWorker s).phase = Phase.terminated ↔
      (∃ u ∈ b, u.isShutdownTask = true) ∨
        s.phase = Phase.terminated) := by
  obtain ⟨h1, h2⟩ := DatabaseThread.workLoop_executed_phase s.queue s rfl
  constructor
  · show (DatabaseThread.workLoop s s.queue).executed = _
    rw [h1, hq]
    rw [takeWhile_append_all _ a _ (fun u hu => by simp [ha u hu])]
    simp [List.takeWhile_cons, hts, List.append_assoc]
  · show (DatabaseThread.workLoop s s.queue).phase = _ ↔ _
    have hiff : (∃ u ∈ a ++ t :: b, u.isShutdownTask = true) ↔
        (∃ u ∈ b, u.isShutdownTask = true) := by
      constructor
      · rintro ⟨u, hu, hp⟩
        rcases List.mem_append.mp hu with hmem | hmem
        · exact absurd hp (by simp [ha u hmem])
        · rcases List.mem_cons.mp hmem with hmem2 | hmem2
          · subst hmem2; exact absurd hp (by simp [hts])
          · exact ⟨u, hmem2, hp⟩
      · rintro ⟨u, hu, hp⟩
        exact ⟨u, by simp [hu], hp⟩
    rw [hq] at h2
    show (DatabaseThread.workLoop s s.queue).phase = Phase.terminated ↔ _
    rw [hq]
    rw [h2, hiff]

/-- Witness for C7: a failing task followed by an ordinary task and the
shutdown task; both tasks execute and the loop terminates only at the
shutdown task. -/
theorem claim_C7_witness :
    (DatabaseThread.runWorker sampleQ).executed =
      sampleQ.executed ++
        List.map (fun u => u.id) ([] : List DatabaseTask) ++
        (5 : Nat) ::
          List.map (fun u => u.id)
            (List.takeWhile (fun u => !u.isShutdownTask)
              [(⟨6, false, false⟩ : DatabaseTask),
                DatabaseThread.shutdownTask]) ∧
    ((DatabaseThread.runWorker sampleQ).phase = Phase.terminated ↔
      (∃ u ∈ [(⟨6, false, false⟩ : DatabaseTask),
          DatabaseThread.shutdownTask], u.isShutdownTask = true) ∨
        sampleQ.phase = Phase.terminated) :=
  claim_C7_failure_does_not_kill_loop sampleQ []
    [⟨6, false, false⟩, DatabaseThread.shutdownTask] ⟨5, true, false⟩
    rfl rfl rfl (by decide)

/-- Claim C8: whenever the platform thread has not been created
(`m_thread` null, in particular before `start()`), `isDatabaseThread`
returns false instead of failing: the null-guard makes the query
total. -/
theorem claim_C8_isDatabaseThread_total (s : DatabaseThread)
    (h : s.m_thread = none) :
    DatabaseThread.isDatabaseThread s = false := by
  unfold DatabaseThread.isDatabaseThread
  rw [h]

/-- Witness for C8 on a freshly created instance. -/
theorem claim_C8_witness :
    DatabaseThread.isDatabaseThread DatabaseThread.create = false :=
  claim_C8_isDatabaseThread_total DatabaseThread.create rfl

/-- Claim C9: the Open-Database Registry has set semantics: recording a
handle open twice equals recording it once, recording a non-member
closed is a no-op, and `isDatabaseOpen` is exactly membership. -/
theorem claim_C9_registry_set_semantics (s : DatabaseThread) (h : Nat) :
    DatabaseThread.recordDatabaseOpen h
        (DatabaseThread.recordDatabaseOpen h s) =
      DatabaseThread.recordDatabaseOpen h s ∧
    (h ∉ s.m_openDatabaseSet →
      DatabaseThread.recordDatabaseClosed h s = s) ∧
    (DatabaseThread.isDatabaseOpen h s = true ↔
      h ∈ s.m_openDatabaseSet) := by
  refine ⟨?_, ?_, ?_⟩
  · by_cases hm : h ∈ s.m_openDatabaseSet
    · simp [DatabaseThread.recordDatabaseOpen, hm]
    · simp [DatabaseThread.recordDatabaseOpen, hm]
  · intro hm
    simp [DatabaseThread.recordDatabaseClosed, List.erase_of_not_mem hm]
  · simp [DatabaseThread.isDatabaseOpen]

/-- Witness for C9 on the sample registry holding handles 1 and 2. -/
theorem claim_C9_witness :
    DatabaseThread.recordDatabaseClosed 5 sampleOpen = sampleOpen ∧
    (DatabaseThread.isDatabaseOpen 1 sampleOpen = true ↔
      1 ∈ sampleOpen.m_openDatabaseSet) ∧
    DatabaseThread.recordDatabaseOpen 5
        (DatabaseThread.recordDatabaseOpen 5 sampleOpen) =
      DatabaseThread.recordDatabaseOpen 5 sampleOpen :=
  ⟨(claim_C9_registry_set_semantics sampleOpen 5).2.1 (by decide),
   (claim_C9_registry_set_semantics sampleOpen 1).2.2,
   (claim_C9_registry_set_semantics sampleOpen 5).1⟩

/-- Claim C10: `terminationRequested` is a pure query: it returns the
termination flag and leaves every field of the state unchanged, for any
synchronizer argument (including none). -/
theorem claim_C10_terminationRequested_pure (s : DatabaseThread)
    (sync : Option Nat) :
    (DatabaseThread.terminationRequested sync s).1 =
      s.m_terminationRequested ∧
    (DatabaseThread.terminationRequested sync s).2 = s ∧
    (DatabaseThread.terminationRequested sync s).2.queue = s.queue ∧
    (DatabaseThread.terminationRequested sync s).2.m_openDatabaseSet =
      s.m_openDatabaseSet ∧
    (DatabaseThread.terminationRequested sync s).2.m_transactionCoordinator =
      s.m_transactionCoordinator ∧
    (DatabaseThread.terminationRequested sync s).2.m_cleanupSync =
      s.m_cleanupSync ∧
    (DatabaseThread.terminationRequested sync s).2.m_terminationRequested =
      s.m_terminationRequested ∧
    (DatabaseThread.terminationRequested sync s).2.m_thread = s.m_thread := by
  cases sync <;> simp [DatabaseThread.terminationRequested]

end WebDB
